import Mathlib

/-!
Shallow embedding of the chip8 repository (a Chip-8 instruction decoder,
disassembler and emulator skeleton written in Rust) together with proofs
about its claims.

Bytes, nibbles and addresses are modelled as `Nat`; every place where the
Rust code can panic (a failed assertion, an out-of-bounds index, a usize
subtraction underflow) is modelled by an `Option`/`Except` result whose
absent branch stands for the panic.
-/

namespace Chip8

/-! ## src/data.rs -/

namespace Nibble

/-- `Nibble::from_high`: the high 4 bits of a byte, `(value >> 4) & 0x0F`. -/
def from_high (value : Nat) : Nat := (value / 16) % 16

/-- `Nibble::from_low`: the low 4 bits of a byte, `value & 0x0F`. -/
def from_low (value : Nat) : Nat := value % 16

end Nibble

/-! ## src/opcode.rs -/

/-- The `Opcode` enum: one constructor per instruction form.  Register ids,
immediates, nibbles and 12-bit addresses are all carried as `Nat`. -/
inductive Opcode where
  | Sys : Nat → Opcode
  | Cls : Opcode
  | Ret : Opcode
  | Jp : Nat → Opcode
  | Call : Nat → Opcode
  | Se : Nat → Nat → Opcode
  | Sne : Nat → Nat → Opcode
  | Sev : Nat → Nat → Opcode
  | LdImm : Nat → Nat → Opcode
  | AddImm : Nat → Nat → Opcode
  | Ld : Nat → Nat → Opcode
  | Or : Nat → Nat → Opcode
  | And : Nat → Nat → Opcode
  | Xor : Nat → Nat → Opcode
  | Add : Nat → Nat → Opcode
  | Sub : Nat → Nat → Opcode
  | Shr : Nat → Opcode
  | Subn : Nat → Nat → Opcode
  | Shl : Nat → Opcode
  | Snev : Nat → Nat → Opcode
  | Ldi : Nat → Opcode
  | JpV0 : Nat → Opcode
  | Rnd : Nat → Nat → Opcode
  | Drw : Nat → Nat → Nat → Opcode
  | Skp : Nat → Opcode
  | Sknp : Nat → Opcode
  | LdVDt : Nat → Opcode
  | LdK : Nat → Opcode
  | LdDtV : Nat → Opcode
  | LdStV : Nat → Opcode
  | AddI : Nat → Opcode
  | LdF : Nat → Opcode
  | LdB : Nat → Opcode
  | Dump : Nat → Opcode
  | Restore : Nat → Opcode
  deriving DecidableEq, Repr

/-- `addr_from_bytes`: `u16::from_be_bytes([high & 0x0F, low])`. -/
def addr_from_bytes (high low : Nat) : Nat := (high % 16) * 256 + low

/-- The body of `Opcode::decode` after the length assertion: the match on
the high nibble of the first byte (each Rust `match` arm is rendered as a
chain of equality tests on the scrutinee). -/
def Opcode.decodeWord (b0 b1 : Nat) : Option Opcode :=
  if Nibble.from_high b0 = 0x0 then
    if b0 = 0x00 ∧ b1 = 0xE0 then some .Cls
    else if b0 = 0x00 ∧ b1 = 0xEE then some .Ret
    else some (.Sys (addr_from_bytes b0 b1))
  else if Nibble.from_high b0 = 0x1 then some (.Jp (addr_from_bytes b0 b1))
  else if Nibble.from_high b0 = 0x2 then some (.Call (addr_from_bytes b0 b1))
  else if Nibble.from_high b0 = 0x3 then some (.Se (Nibble.from_low b0) b1)
  else if Nibble.from_high b0 = 0x4 then some (.Sne (Nibble.from_low b0) b1)
  else if Nibble.from_high b0 = 0x5 then
    if Nibble.from_low b1 = 0 then some (.Sev (Nibble.from_low b0) (Nibble.from_high b1))
    else none
  else if Nibble.from_high b0 = 0x6 then some (.LdImm (Nibble.from_low b0) b1)
  else if Nibble.from_high b0 = 0x7 then some (.AddImm (Nibble.from_low b0) b1)
  else if Nibble.from_high b0 = 0x8 then
    if Nibble.from_low b1 = 0x0 then some (.Ld (Nibble.from_low b0) (Nibble.from_high b1))
    else if Nibble.from_low b1 = 0x1 then some (.Or (Nibble.from_low b0) (Nibble.from_high b1))
    else if Nibble.from_low b1 = 0x2 then some (.And (Nibble.from_low b0) (Nibble.from_high b1))
    else if Nibble.from_low b1 = 0x3 then some (.Xor (Nibble.from_low b0) (Nibble.from_high b1))
    else if Nibble.from_low b1 = 0x4 then some (.Add (Nibble.from_low b0) (Nibble.from_high b1))
    else if Nibble.from_low b1 = 0x5 then some (.Sub (Nibble.from_low b0) (Nibble.from_high b1))
    else if Nibble.from_low b1 = 0x6 then some (.Shr (Nibble.from_low b0))
    else if Nibble.from_low b1 = 0x7 then some (.Subn (Nibble.from_low b0) (Nibble.from_high b1))
    else if Nibble.from_low b1 = 0xE then some (.Shl (Nibble.from_low b0))
    else none
  else if Nibble.from_high b0 = 0x9 then
    if Nibble.from_low b1 = 0 then some (.Snev (Nibble.from_low b0) (Nibble.from_high b1))
    else none
  else if Nibble.from_high b0 = 0xA then some (.Ldi (addr_from_bytes b0 b1))
  else if Nibble.from_high b0 = 0xB then some (.JpV0 (addr_from_bytes b0 b1))
  else if Nibble.from_high b0 = 0xC then some (.Rnd (Nibble.from_low b0) b1)
  else if Nibble.from_high b0 = 0xD then
    some (.Drw (Nibble.from_low b0) (Nibble.from_high b1) (Nibble.from_low b1))
  else if Nibble.from_high b0 = 0xE then
    if b1 = 0x9E then some (.Skp (Nibble.from_low b0))
    else if b1 = 0xA1 then some (.Sknp (Nibble.from_low b0))
    else none
  else if Nibble.from_high b0 = 0xF then
    if b1 = 0x07 then some (.LdVDt (Nibble.from_low b0))
    else if b1 = 0x0A then some (.LdK (Nibble.from_low b0))
    else if b1 = 0x15 then some (.LdDtV (Nibble.from_low b0))
    else if b1 = 0x18 then some (.LdStV (Nibble.from_low b0))
    else if b1 = 0x1E then some (.AddI (Nibble.from_low b0))
    else if b1 = 0x29 then some (.LdF (Nibble.from_low b0))
    else if b1 = 0x33 then some (.LdB (Nibble.from_low b0))
    else if b1 = 0x55 then some (.Dump (Nibble.from_low b0))
    else if b1 = 0x65 then some (.Restore (Nibble.from_low b0))
    else none
  else none

/-- `Opcode::decode` on a byte slice.  The outer `Option` models the
`assert_eq!(bytes.len(), 2)` at the top of the function: `none` is the
panic, `some r` is a normal return with result `r`. -/
def Opcode.decode (bytes : List Nat) : Option (Option Opcode) :=
  if bytes.length = 2 then some (Opcode.decodeWord (bytes.getD 0 0) (bytes.getD 1 0))
  else none

/-! ## src/emulation.rs -/

/-- `MEMORY_SIZE`: size of emulator RAM in bytes. -/
def MEMORY_SIZE : Nat := 4096

/-- `STACK_SIZE`: size of the stack in number of addresses. -/
def STACK_SIZE : Nat := 16

/-- The `EmulationError` enum. -/
inductive EmulationError where
  | StackOverflow : EmulationError
  | StackUnderflow : EmulationError
  | OutOfMemory : EmulationError
  | InvalidInstruction : Nat → EmulationError
  deriving DecidableEq, Repr

/-- `Memory`: a 4KiB array of bytes.  Its `bytes` list has length
`MEMORY_SIZE` in every state the program builds. -/
structure Memory where
  bytes : List Nat
  deriving DecidableEq, Repr

/-- `Memory::default()`: all-zero RAM. -/
def Memory.default : Memory := ⟨List.replicate MEMORY_SIZE 0⟩

/-- The write loop of `Memory::load`: `self.0[i + offset] = data[i]` for
`i` in `0..data.len()`, i.e. the bytes of `data` are stored one after the
other starting at `offset`. -/
def storeBytes (mem : List Nat) (offset : Nat) : List Nat → List Nat
  | [] => mem
  | b :: rest => storeBytes (mem.set offset b) (offset + 1) rest

/-- `Memory::load`.  Mutation of `&mut self` is modelled by returning the
memory after the call next to the optional error: an early `return Err`
leaves the memory exactly as it was. -/
def Memory.load (m : Memory) (offset : Nat) (data : List Nat) :
    Memory × Option EmulationError :=
  if data.length > MEMORY_SIZE - offset then (m, some .OutOfMemory)
  else (⟨storeBytes m.bytes offset data⟩, none)

/-- `Memory::fetch_instruction`.  The two `assert` statements are modelled
by the two guards; `none` is a panic, `some` is the returned 2-byte slice
`self.0[index..index + 2]`. -/
def Memory.fetch_instruction (m : Memory) (address : Nat) : Option (List Nat) :=
  if address % 2 = 0 then
    if address < MEMORY_SIZE - 2 then
      some [m.bytes.getD address 0, m.bytes.getD (address + 1) 0]
    else none
  else none

/-- The `Stack` struct: an index plus a fixed 16-slot backing array. -/
structure Stack where
  stack_index : Nat
  memory : List Nat
  deriving DecidableEq, Repr

/-- `Stack::default()`. -/
def Stack.default : Stack := ⟨0, List.replicate STACK_SIZE 0⟩

/-- `Stack::push`: refuse when `stack_index >= STACK_SIZE - 1`, otherwise
increment the index and store the address at the new index. -/
def Stack.push (s : Stack) (addr : Nat) : Except EmulationError Stack :=
  if s.stack_index ≥ STACK_SIZE - 1 then .error .StackOverflow
  else .ok ⟨s.stack_index + 1, s.memory.set (s.stack_index + 1) addr⟩

/-- `Stack::pop`: refuse when `stack_index == 0`, otherwise read the slot
at the current index and decrement the index. -/
def Stack.pop (s : Stack) : Except EmulationError (Nat × Stack) :=
  if s.stack_index = 0 then .error .StackUnderflow
  else .ok (s.memory.getD s.stack_index 0, ⟨s.stack_index - 1, s.memory⟩)

/-- The `Registers` struct: 16 general purpose 8-bit cells.  Its `cells`
list has length 16 in every state the program builds. -/
structure Registers where
  cells : List Nat
  deriving DecidableEq, Repr

/-- `Registers::default()`. -/
def Registers.default : Registers := ⟨List.replicate 16 0⟩

/-- `Registers::get`: `self.0[r.0.as_usize()]`; `none` models the panic of
an out-of-bounds index. -/
def Registers.get (rs : Registers) (r : Nat) : Option Nat :=
  if r < rs.cells.length then some (rs.cells.getD r 0) else none

/-- `Registers::set`: `self.0[r.0.as_usize()] = value`; `none` models the
panic of an out-of-bounds index. -/
def Registers.set (rs : Registers) (r value : Nat) : Option Registers :=
  if r < rs.cells.length then some ⟨rs.cells.set r value⟩ else none

/-- The observable outcome of `Emulator::run`: either the load fault it
returns, or divergence — after a successful load it enters
`emulation_loop`, whose body is `loop {}`, so it spins forever and never
executes an instruction. -/
inductive RunOutcome where
  | fault : EmulationError → RunOutcome
  | diverges : RunOutcome
  deriving DecidableEq, Repr

/-- `Emulator::run` on a fresh emulator (`Emulator::new()` sets
`start_address = 0x200` and a default state). -/
def Emulator.run (program : List Nat) : RunOutcome :=
  match (Memory.default.load 0x200 program).2 with
  | some e => .fault e
  | none => .diverges

/-! ## Rust hexadecimal formatting

`hexUpper w n` renders `n` the way Rust's `{:0wX}` format specifier does
(uppercase hexadecimal, zero-padded to a minimum of `w` digits), and
`hexLower` the way `{:x}` does, for every value below `16 ^ 8` — which
covers all `u8`/`u16` values the program formats. -/

/-- One hexadecimal digit character; `upper` selects the A-F alphabet. -/
def hexDigitChar (upper : Bool) (n : Nat) : Char :=
  if n < 10 then Char.ofNat (48 + n)
  else Char.ofNat ((if upper then 55 else 87) + n)

/-- The digits of `n` in base 16, most significant first, empty for 0.
`fuel` bounds the recursion; `8` is enough for any value below `16 ^ 8`. -/
def hexDigitsCore (upper : Bool) : Nat → Nat → List Char
  | 0, _ => []
  | _ + 1, 0 => []
  | fuel + 1, n => hexDigitsCore upper fuel (n / 16) ++ [hexDigitChar upper (n % 16)]

/-- Rust `{:0wX}`: uppercase hexadecimal, zero-padded to at least `w` digits. -/
def hexUpper (w n : Nat) : String :=
  let ds := hexDigitsCore true 8 n
  ⟨List.replicate (w - ds.length) (Char.ofNat 48) ++ ds⟩

/-- Rust `{:x}` with no width: lowercase hexadecimal, at least one digit. -/
def hexLower (n : Nat) : String :=
  let ds := hexDigitsCore false 8 n
  ⟨List.replicate (1 - ds.length) (Char.ofNat 48) ++ ds⟩

/-- `Display for Nibble`: `{:x}` on the wrapped value.  Register ids are
printed through this (a `Register` displays its `Nibble`). -/
def Nibble.display (n : Nat) : String := hexLower n

/-- `Display for Opcode` (`impl Display for Opcode` in src/opcode.rs),
format strings rendered as explicit concatenations. -/
def Opcode.toString : Opcode → String
  | .Sys addr => "SYS  0x" ++ hexUpper 3 addr
  | .Cls => "CLS"
  | .Ret => "RET"
  | .Jp addr => "JP   0x" ++ hexUpper 3 addr
  | .Call addr => "CALL 0x" ++ hexUpper 3 addr
  | .Se r x => "SE   V" ++ Nibble.display r ++ ", 0x" ++ hexUpper 2 x
  | .Sne r x => "SNE  V" ++ Nibble.display r ++ ", 0x" ++ hexUpper 2 x
  | .Sev r1 r2 => "SE   V" ++ Nibble.display r1 ++ ", V" ++ Nibble.display r2
  | .LdImm r x => "LD   V" ++ Nibble.display r ++ ", 0x" ++ hexUpper 2 x
  | .AddImm r x => "ADD  V" ++ Nibble.display r ++ ", 0x" ++ hexUpper 2 x
  | .Ld r1 r2 => "LD   V" ++ Nibble.display r1 ++ ", V" ++ Nibble.display r2
  | .Or r1 r2 => "OR   V" ++ Nibble.display r1 ++ ", V" ++ Nibble.display r2
  | .And r1 r2 => "AND  V" ++ Nibble.display r1 ++ ", V" ++ Nibble.display r2
  | .Xor r1 r2 => "XOR  V" ++ Nibble.display r1 ++ ", V" ++ Nibble.display r2
  | .Add r1 r2 => "ADD  V" ++ Nibble.display r1 ++ ", V" ++ Nibble.display r2
  | .Sub r1 r2 => "SUB  V" ++ Nibble.display r1 ++ ", V" ++ Nibble.display r2
  | .Shr r1 => "SHR  V" ++ Nibble.display r1
  | .Subn r1 r2 => "SUBN V" ++ Nibble.display r1 ++ ", V" ++ Nibble.display r2
  | .Shl r1 => "SHL   V" ++ Nibble.display r1
  | .Snev r1 r2 => "SNE  V" ++ Nibble.display r1 ++ ", V" ++ Nibble.display r2
  | .Ldi addr => "LD   I, 0x" ++ hexUpper 3 addr
  | .JpV0 addr => "JP   V0, 0x" ++ hexUpper 3 addr
  | .Rnd r x => "RND  V" ++ Nibble.display r ++ ", 0x" ++ hexUpper 2 x
  | .Drw r1 r2 n =>
      "DRW  V" ++ Nibble.display r1 ++ ", V" ++ Nibble.display r2 ++ ", 0x" ++ hexUpper 1 n
  | .Skp r => "SKP  V" ++ Nibble.display r
  | .Sknp r => "SKNP V" ++ Nibble.display r
  | .LdVDt r => "LD   V" ++ Nibble.display r ++ ", DT"
  | .LdK r => "LD   V" ++ Nibble.display r ++ ", K"
  | .LdDtV r => "LD   DT, V" ++ Nibble.display r
  | .LdStV r => "LD   ST, V" ++ Nibble.display r
  | .AddI r => "ADD  I, V" ++ Nibble.display r
  | .LdF r => "LD   F, V" ++ Nibble.display r
  | .LdB r => "LD   B, V" ++ Nibble.display r
  | .Dump r => "LD   [I], V" ++ Nibble.display r
  | .Restore r => "LD   V" ++ Nibble.display r ++ ", [I]"

/-! ## src/disassemble.rs -/

/-- `DEFAULT_START_ADDR`. -/
def DEFAULT_START_ADDR : Nat := 0x200

/-- The `Disassembler` struct: its three configuration fields. -/
structure Disassembler where
  include_addresses : Bool
  start_address : Nat
  include_binary : Bool
  deriving DecidableEq, Repr

/-- `Disassembler::new()`. -/
def Disassembler.new : Disassembler := ⟨false, DEFAULT_START_ADDR, false⟩

/-- `Disassembler::with_addresses`. -/
def Disassembler.with_addresses (d : Disassembler) (b : Bool) : Disassembler :=
  ⟨b, d.start_address, d.include_binary⟩

/-- `Disassembler::with_start_address`. -/
def Disassembler.with_start_address (d : Disassembler) (a : Nat) : Disassembler :=
  ⟨d.include_addresses, a, d.include_binary⟩

/-- `Disassembler::with_binary`. -/
def Disassembler.with_binary (d : Disassembler) (b : Bool) : Disassembler :=
  ⟨d.include_addresses, d.start_address, b⟩

/-- `Disassembler::write_instruction` for the 2-byte slice `[b0, b1]` at
offset `index`: the single line written to the writer, without the
trailing newline that `writeln!` appends.  `index as u16 + start_address`
is `u16` addition, hence the reduction modulo 65536. -/
def Disassembler.write_instruction (d : Disassembler) (opcode : Option Opcode)
    (index b0 b1 : Nat) : String :=
  let opcode_text := match opcode with
    | some o => o.toString
    | none => "--"
  let addr := (index + d.start_address) % 65536
  match d.include_addresses, d.include_binary with
  | true, true =>
      hexUpper 3 addr ++ "   " ++ hexUpper 2 b0 ++ " " ++ hexUpper 2 b1 ++ "    " ++ opcode_text
  | true, false => hexUpper 3 addr ++ "    " ++ opcode_text
  | false, true => hexUpper 2 b0 ++ " " ++ hexUpper 2 b1 ++ "    " ++ opcode_text
  | false, false => opcode_text

/-- The loop of `Disassembler::disassemble`: one line per 2-byte pair, in
order, `index` tracking the loop variable `i`. -/
def disasmLines (d : Disassembler) (index : Nat) : List Nat → List String
  | b0 :: b1 :: rest =>
      d.write_instruction (Opcode.decodeWord b0 b1) index b0 b1 :: disasmLines d (index + 2) rest
  | _ => []

/-- `Disassembler::disassemble`: the list of lines written, or `none` for
a panic.  An odd length hits the explicit length check; an empty program
panics as well, because the loop bound is computed as `program.len() - 1`,
a `usize` subtraction that underflows when the length is 0 (and in release
mode the resulting huge range makes `program[0..2]` an out-of-bounds
slice of the empty program). -/
def Disassembler.disassemble (d : Disassembler) (program : List Nat) : Option (List String) :=
  if program.length % 2 ≠ 0 then none
  else if program.length = 0 then none
  else some (disasmLines d 0 program)

/-! ## Auxiliary definitions used by the statements -/

/-- Iterates `Stack::push` over a list of addresses, stopping at the first
error. -/
def pushAll (s : Stack) : List Nat → Except EmulationError Stack
  | [] => .ok s
  | a :: rest =>
    match s.push a with
    | .ok s2 => pushAll s2 rest
    | .error e => .error e

/-! ## Claims -/

/-- C1: for every input slice of exactly 2 bytes, `Opcode::decode` is total
and pure: the length assertion passes and the function returns normally,
with either exactly one `Instruction` (`some`) or an absent result (`none`)
for each bit pattern — it never panics. -/
theorem decode_total (bytes : List Nat) (h : bytes.length = 2) :
    ∃ r : Option Opcode, Opcode.decode bytes = some r := by
  unfold Opcode.decode
  rw [if_pos h]
  exact ⟨_, rfl⟩

/-- Witness for C1 at the concrete slice `[0xA2, 0x34]`. -/
theorem decode_total_witness :
    ([0xA2, 0x34] : List Nat).length = 2 ∧
      ∃ r : Option Opcode, Opcode.decode [0xA2, 0x34] = some r :=
  ⟨by decide, decode_total [0xA2, 0x34] (by decide)⟩

set_option maxHeartbeats 1000000 in
/-- C3: `Opcode::decode` returns `none` exactly for the unmapped patterns:
group 0x5 or 0x9 with a nonzero low nibble of the second byte, group 0x8
with a sub-code outside the 9 defined ones (0x0-0x7 and 0xE), group 0xE
with a second byte other than 0x9E or 0xA1, and group 0xF with a second
byte outside the 9 enumerated codes; in particular `[0x50, 0x01]` and
`[0x80, 0x08]` decode to `none`. -/
theorem decode_none_iff :
    (∀ b0 b1 : Nat, b0 < 256 → b1 < 256 →
      (Opcode.decodeWord b0 b1 = none ↔
        ((b0 / 16 = 0x5 ∨ b0 / 16 = 0x9) ∧ b1 % 16 ≠ 0) ∨
        (b0 / 16 = 0x8 ∧ b1 % 16 ≠ 0x0 ∧ b1 % 16 ≠ 0x1 ∧ b1 % 16 ≠ 0x2 ∧ b1 % 16 ≠ 0x3 ∧
          b1 % 16 ≠ 0x4 ∧ b1 % 16 ≠ 0x5 ∧ b1 % 16 ≠ 0x6 ∧ b1 % 16 ≠ 0x7 ∧ b1 % 16 ≠ 0xE) ∨
        (b0 / 16 = 0xE ∧ b1 ≠ 0x9E ∧ b1 ≠ 0xA1) ∨
        (b0 / 16 = 0xF ∧ b1 ≠ 0x07 ∧ b1 ≠ 0x0A ∧ b1 ≠ 0x15 ∧ b1 ≠ 0x18 ∧ b1 ≠ 0x1E ∧
          b1 ≠ 0x29 ∧ b1 ≠ 0x33 ∧ b1 ≠ 0x55 ∧ b1 ≠ 0x65))) ∧
    Opcode.decode [0x50, 0x01] = some none ∧
    Opcode.decode [0x80, 0x08] = some none := by
  refine ⟨?_, by decide, by decide⟩
  intro b0 b1 h0 h1
  have hfh : Nibble.from_high b0 = b0 / 16 := by unfold Nibble.from_high; omega
  have hcase : b0 / 16 = 0 ∨ b0 / 16 = 1 ∨ b0 / 16 = 2 ∨ b0 / 16 = 3 ∨ b0 / 16 = 4 ∨
      b0 / 16 = 5 ∨ b0 / 16 = 6 ∨ b0 / 16 = 7 ∨ b0 / 16 = 8 ∨ b0 / 16 = 9 ∨
      b0 / 16 = 10 ∨ b0 / 16 = 11 ∨ b0 / 16 = 12 ∨ b0 / 16 = 13 ∨ b0 / 16 = 14 ∨
      b0 / 16 = 15 := by omega
  unfold Opcode.decodeWord
  rw [hfh]
  simp only [Nibble.from_low]
  rcases hcase with h | h | h | h | h | h | h | h | h | h | h | h | h | h | h | h <;>
      rw [h] <;> norm_num <;> (try split_ifs) <;> (try simp_all)

/-- Witness for C3 at the concrete word `[0x50, 0x01]`. -/
theorem decode_none_iff_witness : Opcode.decodeWord 0x50 0x01 = none :=
  (decode_none_iff.1 0x50 0x01 (by decide) (by decide)).2
    (Or.inl ⟨Or.inl (by decide), by decide⟩)

/-- C4: `0x00E0` decodes to `Cls`, `0x00EE` to `Ret`, every other word with
high nibble 0 to `Sys` carrying the low 12 bits; `[0xA2, 0x34]` decodes to
`Ldi 0x234` and `[0x82, 0x14]` to `Add` with destination register 2 and
source register 1. -/
theorem decode_group0_examples :
    Opcode.decodeWord 0x00 0xE0 = some .Cls ∧
    Opcode.decodeWord 0x00 0xEE = some .Ret ∧
    (∀ b0 b1 : Nat, b0 < 256 → b1 < 256 → b0 / 16 = 0 →
      ¬(b0 = 0x00 ∧ b1 = 0xE0) → ¬(b0 = 0x00 ∧ b1 = 0xEE) →
      Opcode.decodeWord b0 b1 = some (.Sys (b0 % 16 * 256 + b1))) ∧
    Opcode.decode [0xA2, 0x34] = some (some (.Ldi 0x234)) ∧
    Opcode.decode [0x82, 0x14] = some (some (.Add 0x2 0x1)) := by
  refine ⟨by decide, by decide, ?_, by decide, by decide⟩
  intro b0 b1 h0 h1 hg he0 hee
  have hh : Nibble.from_high b0 = 0 := by unfold Nibble.from_high; omega
  unfold Opcode.decodeWord
  rw [if_pos hh, if_neg he0, if_neg hee]
  rfl

/-- Witness for C4 at the concrete word `[0x01, 0x23]`. -/
theorem decode_group0_examples_witness :
    Opcode.decodeWord 0x01 0x23 = some (.Sys 0x123) :=
  decode_group0_examples.2.2.1 0x01 0x23 (by decide) (by decide) (by decide)
    (by decide) (by decide)

/-- C2 (code bug): the code's own comment says 16 addresses can be stored,
but after 15 successful pushes onto an empty stack (`stack_index = 15`,
slot 0 of the backing array permanently unused) the next `Stack::push`
already reports `StackOverflow`, so the effective capacity is 15. -/
theorem stack_overflow_after_15 :
    pushAll Stack.default (List.range 15) = Except.ok ⟨15, 0 :: List.range 15⟩ ∧
    Stack.push ⟨15, 0 :: List.range 15⟩ 0x300 = Except.error EmulationError.StackOverflow :=
  ⟨rfl, rfl⟩

/-- C5: `Memory::load` fails with `OutOfMemory` exactly when the data is
longer than `MEMORY_SIZE` minus the offset, failure leaves the memory
unchanged, and `Emulator::run` (origin 0x200) reports the fault exactly
when the program is longer than 3584 bytes — before any instruction is
executed, since a successful load only enters the empty `loop {}`. -/
theorem load_out_of_memory (offset : Nat) (hoff : offset ≤ MEMORY_SIZE) (m : Memory)
    (data : List Nat) (program : List Nat) :
    ((m.load offset data).2 = some EmulationError.OutOfMemory ↔
      data.length > MEMORY_SIZE - offset) ∧
    ((m.load offset data).2 ≠ none → (m.load offset data).1 = m) ∧
    (Emulator.run program = RunOutcome.fault EmulationError.OutOfMemory ↔
      program.length > 3584) := by
  refine ⟨?_, ?_, ?_⟩
  · unfold Memory.load
    split_ifs with h1
    · simp [h1]
    · simp [h1]
  · unfold Memory.load
    split_ifs with h1 <;> simp
  · constructor
    · intro hrun
      by_contra hlen2
      have hnone : (Memory.default.load 0x200 program).2 = none := by
        unfold Memory.load
        rw [if_neg (by simp only [MEMORY_SIZE]; omega)]
      unfold Emulator.run at hrun
      rw [hnone] at hrun
      exact RunOutcome.noConfusion hrun
    · intro hlen2
      have hsome : (Memory.default.load 0x200 program).2 =
          some EmulationError.OutOfMemory := by
        unfold Memory.load
        rw [if_pos (by simp only [MEMORY_SIZE]; omega)]
      unfold Emulator.run
      rw [hsome]

/-- Witness for C5: a 3585-byte program overflows the 3584 bytes available
from origin 0x200. -/
theorem load_out_of_memory_witness :
    Emulator.run (List.replicate 3585 0) = RunOutcome.fault EmulationError.OutOfMemory :=
  (load_out_of_memory 0x200 (by decide) Memory.default [] (List.replicate 3585 0)).2.2.mpr
    (by rw [List.length_replicate]; omega)

/-- C6 (code bug): the empty program has even length, yet
`Disassembler::disassemble` panics on it — the loop bound `program.len() - 1`
underflows — instead of producing zero lines, contradicting the method's
own documentation that it panics only for odd lengths. -/
theorem disassemble_empty_input : Disassembler.new.disassemble [] = none := rfl

/-- C7: disassembling `[0xA2, 0x34]` with addresses and binary enabled and
start address 0x200 yields the single line with address `200`, bytes
`A2 34` and the load-address-register mnemonic. -/
theorem disassemble_ldi_line :
    (((Disassembler.new.with_addresses true).with_binary true).with_start_address
        0x200).disassemble [0xA2, 0x34] = some ["200   A2 34    LD   I, 0x234"] := by
  decide

/-- C8 counterexample: address 4094 is even and the word at it still fits
in the 4096-byte memory (4094 + 1 ≤ 4095), yet `Memory::fetch_instruction`
panics, because its bound check requires `address < MEMORY_SIZE - 2`. -/
theorem fetch_instruction_4094 :
    4094 % 2 = 0 ∧ 4094 + 1 ≤ 4095 ∧
    Memory.fetch_instruction Memory.default 4094 = none :=
  ⟨by decide, by decide, by decide⟩

/-- C8 (amended): for every even address with `address + 1 < 4095`, i.e.
`address < MEMORY_SIZE - 2`, `Memory::fetch_instruction` does not panic and
returns exactly the two bytes at the address and the next one. -/
theorem fetch_instruction_even_in_bounds (m : Memory) (address : Nat)
    (haligned : address % 2 = 0) (hroom : address + 1 < 4095) :
    Memory.fetch_instruction m address =
      some [m.bytes.getD address 0, m.bytes.getD (address + 1) 0] := by
  unfold Memory.fetch_instruction
  rw [if_pos haligned, if_pos (show address < MEMORY_SIZE - 2 by unfold MEMORY_SIZE; omega)]

/-- Witness for the amended C8 at address 2 of a small memory. -/
theorem fetch_instruction_even_in_bounds_witness :
    2 % 2 = 0 ∧ 2 + 1 < 4095 ∧
    Memory.fetch_instruction ⟨[1, 2, 3, 4]⟩ 2 = some [3, 4] :=
  ⟨by decide, by decide,
    by rw [fetch_instruction_even_in_bounds ⟨[1, 2, 3, 4]⟩ 2 (by decide) (by decide)]; rfl⟩

/-- C9: both nibble extractors return values at most 0xF, so every register
id built from them stays inside the 16-cell register array: `Registers::get`
and `Registers::set` never hit their out-of-bounds (panic) branch. -/
theorem nibble_register_bounds (v value : Nat) (rs : Registers)
    (hlen : rs.cells.length = 16) :
    Nibble.from_high v ≤ 0xF ∧ Nibble.from_low v ≤ 0xF ∧
    rs.get (Nibble.from_high v) ≠ none ∧ rs.get (Nibble.from_low v) ≠ none ∧
    rs.set (Nibble.from_high v) value ≠ none ∧ rs.set (Nibble.from_low v) value ≠ none := by
  have hh : Nibble.from_high v < 16 := by unfold Nibble.from_high; omega
  have hl : Nibble.from_low v < 16 := by unfold Nibble.from_low; omega
  refine ⟨by omega, by omega, ?_, ?_, ?_, ?_⟩ <;>
      simp only [Registers.get, Registers.set] <;> rw [hlen] <;> simp [hh, hl]

/-- Witness for C9 at byte 0xAB on the default register file. -/
theorem nibble_register_bounds_witness :
    Nibble.from_high 0xAB ≤ 0xF ∧ Nibble.from_low 0xAB ≤ 0xF ∧
    Registers.default.get (Nibble.from_high 0xAB) ≠ none ∧
    Registers.default.get (Nibble.from_low 0xAB) ≠ none ∧
    Registers.default.set (Nibble.from_high 0xAB) 7 ≠ none ∧
    Registers.default.set (Nibble.from_low 0xAB) 7 ≠ none :=
  nibble_register_bounds 0xAB 7 Registers.default (by decide)

/-- C10: whenever `Stack::push` succeeds, an immediate `Stack::pop`
succeeds, returns the pushed address, and brings the depth (`stack_index`)
back to its value before the push. -/
theorem push_pop_roundtrip (s : Stack) (a : Nat) (s2 : Stack)
    (hlen : s.memory.length = 16) (h : s.push a = Except.ok s2) :
    ∃ s3 : Stack, s2.pop = Except.ok (a, s3) ∧ s3.stack_index = s.stack_index := by
  unfold Stack.push at h
  split_ifs at h with hfull
  injection h with h2
  subst h2
  refine ⟨⟨s.stack_index, s.memory.set (s.stack_index + 1) a⟩, ?_, rfl⟩
  unfold Stack.pop
  rw [if_neg (by simp)]
  have hidx : s.stack_index + 1 < s.memory.length := by
    unfold STACK_SIZE at hfull
    omega
  simp [List.getElem?_set_eq_of_lt _ hidx]

/-- Witness for C10: pushing 7 onto the empty stack and popping it back. -/
theorem push_pop_roundtrip_witness :
    ∃ s3 : Stack, Stack.pop ⟨1, (List.replicate 16 0).set 1 7⟩ = Except.ok (7, s3) ∧
      s3.stack_index = 0 :=
  push_pop_roundtrip Stack.default 7 ⟨1, (List.replicate 16 0).set 1 7⟩ (by decide) rfl

end Chip8
